import Mathlib

/-!
Verification of the playback engine in src/Source/SoundGen.cpp (class CSoundGen)
against its natural-language specification.  Machine integers are embedded as
Nat/Int with explicit truncation where overflow matters; the float chip-level
conversion is embedded in exact rational arithmetic (the factor-of-ten question
it decides is unaffected by float rounding).
-/

namespace MaxiTracker

/-! ## ResetAudioDevice: chip levels, block count, device index -/

/-- Persisted per-chip mix levels, as read from CSettings::ChipLevels in
CSoundGen::ResetAudioDevice. -/
structure ChipLevels where
  iLevelAPU1 : Int
  iLevelAPU2 : Int
  iLevelVRC6 : Int
  iLevelVRC7 : Int
  iLevelMMC5 : Int
  iLevelFDS : Int
  iLevelN163 : Int
  iLevelS5B : Int

/-- Embeds the conversion applied to every persisted chip level in
CSoundGen::ResetAudioDevice before it is passed to CAPU::SetChipLevel:
the source computes float(iLevel / 10.0f); here evaluated exactly in rationals. -/
def chipLevelArg (iLevel : Int) : ℚ := (iLevel : ℚ) / 10

/-- Embeds the eight CAPU::SetChipLevel arguments computed in
CSoundGen::ResetAudioDevice, in source order. -/
def resetAudioChipLevels (c : ChipLevels) : List ℚ :=
  [chipLevelArg c.iLevelAPU1, chipLevelArg c.iLevelAPU2, chipLevelArg c.iLevelVRC6,
   chipLevelArg c.iLevelVRC7, chipLevelArg c.iLevelMMC5, chipLevelArg c.iLevelFDS,
   chipLevelArg c.iLevelN163, chipLevelArg c.iLevelS5B]

/-- The conversion the specification claims: a persisted level L on the 0..100
scale yields chip level L/100 (so 100 maps to 1). -/
def specChipLevel (iLevel : Int) : ℚ := (iLevel : ℚ) / 100

/-- Embeds the iBlocks computation in CSoundGen::ResetAudioDevice: start from 2
blocks and, when the configured buffer length exceeds 100 ms, add BufferLen/66
in integer division. -/
def resetAudioBlocks (BufferLen : Nat) : Nat :=
  let iBlocks := 2
  if BufferLen > 100 then iBlocks + BufferLen / 66 else iBlocks

/-- Embeds the argument tuple of the OpenChannel call in
CSoundGen::ResetAudioDevice: (SampleRate, SampleSize, 1 channel, BufferLen,
iBlocks). -/
def openChannelArgs (SampleRate SampleSize BufferLen : Nat) :
    Nat × Nat × Nat × Nat × Nat :=
  (SampleRate, SampleSize, 1, BufferLen, resetAudioBlocks BufferLen)

/-- The block-count formula stated by the specification. -/
def specBlockCount (bufferLengthMs : Nat) : Nat :=
  if bufferLengthMs > 100 then 2 + bufferLengthMs / 66 else 2

/-- Embeds the device-index validation in CSoundGen::ResetAudioDevice: a
persisted index at or past the enumerated device count is replaced by 0, and
the persisted setting is rewritten to 0 as well.  The first component is the
index used to open the device, the second the persisted setting afterwards. -/
def resetAudioDeviceIndex (Device deviceCount : Nat) : Nat × Nat :=
  if Device ≥ deviceCount then (0, 0) else (Device, Device)

/-! ## Claim theorems: C1, C2, C8 -/

/-- C1 counterexample: the specification claims a persisted level of 100 maps
to chip level 1 (division by 100), but ResetAudioDevice divides by 10, so 100
maps to 10. -/
theorem chip_level_scale_counterexample :
    chipLevelArg 100 = 10 ∧ specChipLevel 100 = 1 ∧
    chipLevelArg 100 ≠ specChipLevel 100 := by
  refine ⟨by norm_num [chipLevelArg], by norm_num [specChipLevel], ?_⟩
  norm_num [chipLevelArg, specChipLevel]

/-- C1 amended: every persisted per-chip mix level L is converted by dividing
by 10, so a persisted level of L yields chip level L/10; levels on the 0..100
scale land in the range 0..10 (100 maps to 10), and all eight chips use this
same conversion. -/
theorem chip_level_scale_amended (c : ChipLevels) (L : Int) :
    chipLevelArg L = (L : ℚ) / 10 ∧
    (0 ≤ L → L ≤ 100 → 0 ≤ chipLevelArg L ∧ chipLevelArg L ≤ 10) ∧
    resetAudioChipLevels c =
      [(c.iLevelAPU1 : ℚ) / 10, (c.iLevelAPU2 : ℚ) / 10, (c.iLevelVRC6 : ℚ) / 10,
       (c.iLevelVRC7 : ℚ) / 10, (c.iLevelMMC5 : ℚ) / 10, (c.iLevelFDS : ℚ) / 10,
       (c.iLevelN163 : ℚ) / 10, (c.iLevelS5B : ℚ) / 10] := by
  refine ⟨rfl, fun h0 h100 => ⟨?_, ?_⟩, rfl⟩
  · have : (0 : ℚ) ≤ (L : ℚ) := by exact_mod_cast h0
    exact div_nonneg this (by norm_num)
  · have h : (L : ℚ) ≤ 100 := by exact_mod_cast h100
    rw [chipLevelArg, div_le_iff₀ (by norm_num : (0 : ℚ) < 10)]
    linarith

/-- C1 amended witness: instantiation at the persisted level 100, which the
code maps to chip level 10. -/
theorem chip_level_scale_amended_witness :
    (0 : Int) ≤ 100 ∧ 0 ≤ chipLevelArg 100 ∧ chipLevelArg 100 ≤ 10 := by
  refine ⟨by norm_num, ?_⟩
  exact (chip_level_scale_amended ⟨0, 0, 0, 0, 0, 0, 0, 0⟩ 100).2.1
    (by norm_num) (by norm_num)

/-- C2: for every sample rate, sample size and buffer length, the block count
passed to OpenChannel equals 2 + bufferLengthMs/66 when bufferLengthMs > 100
and 2 otherwise. -/
theorem open_channel_block_count (SampleRate SampleSize BufferLen : Nat) :
    (openChannelArgs SampleRate SampleSize BufferLen).2.2.2.2 =
      specBlockCount BufferLen ∧
    resetAudioBlocks BufferLen = specBlockCount BufferLen := by
  constructor <;> simp [openChannelArgs, resetAudioBlocks, specBlockCount]

/-- C8: every persisted device index that is not a valid index into the
enumerated devices is silently replaced by device 0, both for the device being
opened and in the persisted setting. -/
theorem invalid_device_index_reset (Device deviceCount : Nat)
    (h : ¬ Device < deviceCount) :
    resetAudioDeviceIndex Device deviceCount = (0, 0) := by
  simp [resetAudioDeviceIndex, Nat.le_of_not_lt h]

/-- C8 witness: persisted index 5 with only 2 enumerated devices resets to
device 0. -/
theorem invalid_device_index_reset_witness :
    ¬ (5 : Nat) < 2 ∧ resetAudioDeviceIndex 5 2 = (0, 0) :=
  ⟨by decide, invalid_device_index_reset 5 2 (by decide)⟩

/-! ## Tempo averaging window (C9) -/

/-- Fixed averaging-window sample count, from the anonymous namespace at the
top of SoundGen.cpp. -/
def DEFAULT_AVERAGE_BPM_SIZE : Nat := 24

/-- Modelled from the spec: the CTempoDisplay implementation is not under
src/ (SoundGen.cpp only includes TempoDisplay.h and constructs the object in
BeginPlayer).  Per the spec it maintains a fixed-size circular history of the
most recent per-tick tempo samples, of the sample count given at
construction. -/
structure CTempoDisplay where
  size : Nat
  history : List ℚ

/-- Modelled from the spec: construction of the tempo display with a given
window sample count, as done in CSoundGen::BeginPlayer with
DEFAULT_AVERAGE_BPM_SIZE. -/
def CTempoDisplay.make (n : Nat) : CTempoDisplay := ⟨n, []⟩

/-- Modelled from the spec: one per-tick update of the circular history keeps
the most recent size samples. -/
def CTempoDisplay.tick (d : CTempoDisplay) (sample : ℚ) : CTempoDisplay :=
  { d with history := (sample :: d.history).take d.size }

/-- Modelled from the spec: the smoothed BPM is the mean of the recorded
per-tick tempo samples (zero while the history is empty). -/
def CTempoDisplay.GetAverageBPM (d : CTempoDisplay) : ℚ :=
  if d.history.length = 0 then 0 else d.history.sum / (d.history.length : ℚ)

/-- Feeds n ticks at a constant instantaneous tempo into the display. -/
def constTicks (d : CTempoDisplay) (t : ℚ) : Nat → CTempoDisplay
  | 0 => d
  | n + 1 => (constTicks d t n).tick t

lemma constTicks_size (d : CTempoDisplay) (t : ℚ) (n : Nat) :
    (constTicks d t n).size = d.size := by
  induction n with
  | zero => rfl
  | succ n ih => simp [constTicks, CTempoDisplay.tick, ih]

lemma constTicks_history (t : ℚ) (k n : Nat) :
    (constTicks (CTempoDisplay.make k) t n).history =
      List.replicate (min n k) t := by
  induction n with
  | zero => simp [constTicks, CTempoDisplay.make]
  | succ n ih =>
    have hs : (constTicks (CTempoDisplay.make k) t n).size = k :=
      constTicks_size (CTempoDisplay.make k) t n
    show List.take (constTicks (CTempoDisplay.make k) t n).size
        (t :: (constTicks (CTempoDisplay.make k) t n).history) = _
    rw [hs, ih, ← List.replicate_succ, List.take_replicate]
    congr 1
    omega

/-- C9: the averaging window holds a fixed count of 24 per-tick samples, and
once it has been filled with samples taken at a constant instantaneous tempo t
the averaged BPM equals t. -/
theorem tempo_average_constant :
    DEFAULT_AVERAGE_BPM_SIZE = 24 ∧
    ∀ (t : ℚ) (n : Nat), DEFAULT_AVERAGE_BPM_SIZE ≤ n →
      (constTicks (CTempoDisplay.make DEFAULT_AVERAGE_BPM_SIZE) t n).history.length =
        DEFAULT_AVERAGE_BPM_SIZE ∧
      (constTicks (CTempoDisplay.make DEFAULT_AVERAGE_BPM_SIZE) t n).GetAverageBPM = t := by
  refine ⟨rfl, fun t n hn => ?_⟩
  have hmin : min n DEFAULT_AVERAGE_BPM_SIZE = DEFAULT_AVERAGE_BPM_SIZE :=
    Nat.min_eq_right hn
  have hh := constTicks_history t DEFAULT_AVERAGE_BPM_SIZE n
  rw [hmin] at hh
  constructor
  · simp [hh]
  · rw [CTempoDisplay.GetAverageBPM, hh]
    norm_num [List.sum_replicate, DEFAULT_AVERAGE_BPM_SIZE, nsmul_eq_mul]

/-- C9 witness: after exactly 24 constant-tempo ticks at tempo 3 the window is
full and the averaged BPM is 3. -/
theorem tempo_average_constant_witness :
    DEFAULT_AVERAGE_BPM_SIZE ≤ 24 ∧
    (constTicks (CTempoDisplay.make DEFAULT_AVERAGE_BPM_SIZE) 3 24).history.length =
      DEFAULT_AVERAGE_BPM_SIZE ∧
    (constTicks (CTempoDisplay.make DEFAULT_AVERAGE_BPM_SIZE) 3 24).GetAverageBPM = 3 :=
  ⟨by decide, tempo_average_constant.2 3 24 (by decide)⟩

/-! ## Channel mute, note queueing and the record channel (C3, C10)

Channels are identified by naturals; the record channel is an Option, with none
standing for chan_id_t::NONE. -/

/-- Runtime state relevant to muting: the per-channel mute flags written by
CSoundGen::SetChannelMute, the notes queued into the sound driver and not yet
consumed by a driver tick, and the armed record channel held by the instrument
recorder. -/
structure DriverState where
  muted : Nat → Bool
  pending : List Nat
  recordChannel : Option Nat

/-- Embeds CSoundGen::SetChannelMute: sets the mute flag for the channel and,
when muting the currently armed record channel, disarms recording by setting
the record channel to NONE. -/
def SetChannelMute (s : DriverState) (chan : Nat) (mute : Bool) : DriverState :=
  let s1 : DriverState :=
    { s with muted := fun c => if c = chan then mute else s.muted c }
  if mute = true ∧ s.recordChannel = some chan then
    { s1 with recordChannel := none }
  else s1

/-- Embeds CSoundGen::IsChannelMuted. -/
def IsChannelMuted (s : DriverState) (chan : Nat) : Bool := s.muted chan

/-- Embeds CSoundGen::QueueNote: passes the note to the sound driver queue
unconditionally (the mute check lives in the callers and in the driver). -/
def QueueNoteCmd (s : DriverState) (chan : Nat) : DriverState :=
  { s with pending := s.pending ++ [chan] }

/-- Embeds the channel loop of CSoundGen::PlaySingleRow: for every document
channel that is not muted, the active note is queued; muted channels are
skipped. -/
def PlaySingleRowCmds (s : DriverState) (channels : List Nat) : DriverState :=
  { s with
    pending := s.pending ++ channels.filter (fun c => !IsChannelMuted s c) }

/-- Modelled from the spec: CSoundDriver (SoundDriver.h is included but its
implementation is not under src/) consumes queued notes on its tick, and per
the spec a note queued on a muted channel must never reach the Hardware
Emulation Unit as a register write, so the tick emits register writes (tagged
here by channel) only for pending notes whose channel is unmuted. -/
def driverTickWrites (s : DriverState) : DriverState × List Nat :=
  ({ s with pending := [] }, s.pending.filter (fun c => !IsChannelMuted s c))

/-- Commands that touch the mute/queue state, in the order the engine serializes
them. -/
inductive DriverCmd where
  | setMute (c : Nat) (b : Bool)
  | queueNote (c : Nat)
  | playSingleRow (channels : List Nat)
  | driverTick
  deriving DecidableEq

/-- One serialized engine command, returning the new state and the channels for
which register writes reached the Hardware Emulation Unit. -/
def driverStep (s : DriverState) : DriverCmd → DriverState × List Nat
  | .setMute c b => (SetChannelMute s c b, [])
  | .queueNote c => (QueueNoteCmd s c, [])
  | .playSingleRow chs => (PlaySingleRowCmds s chs, [])
  | .driverTick => driverTickWrites s

/-- Runs a command sequence, accumulating all emitted register-write channel
tags. -/
def driverRun (s : DriverState) : List DriverCmd → DriverState × List Nat
  | [] => (s, [])
  | cmd :: rest =>
    let p := driverStep s cmd
    let q := driverRun p.1 rest
    (q.1, p.2 ++ q.2)

lemma setChannelMute_muted (s : DriverState) (chan : Nat) (mute : Bool) (c : Nat) :
    (SetChannelMute s chan mute).muted c =
      if c = chan then mute else s.muted c := by
  rw [SetChannelMute]
  split <;> rfl

lemma driverStep_preserves_mute (s : DriverState) (c : Nat) (cmd : DriverCmd)
    (hm : s.muted c = true) (hcmd : cmd ≠ DriverCmd.setMute c false) :
    (driverStep s cmd).1.muted c = true ∧ c ∉ (driverStep s cmd).2 := by
  cases cmd with
  | setMute c2 b =>
    refine ⟨?_, by simp [driverStep]⟩
    rw [driverStep, setChannelMute_muted]
    by_cases hc : c = c2
    · subst hc
      cases b with
      | false => exact absurd rfl hcmd
      | true => simp
    · simp [hc, hm]
  | queueNote c2 => exact ⟨hm, by simp [driverStep]⟩
  | playSingleRow chs => exact ⟨hm, by simp [driverStep]⟩
  | driverTick =>
    refine ⟨hm, ?_⟩
    simp only [driverStep, driverTickWrites, List.mem_filter]
    rintro ⟨-, hfilt⟩
    rw [IsChannelMuted, hm] at hfilt
    exact absurd hfilt (by decide)

lemma driverRun_muted_no_writes (c : Nat) :
    ∀ (cmds : List DriverCmd) (s : DriverState), s.muted c = true →
      (∀ cmd ∈ cmds, cmd ≠ DriverCmd.setMute c false) →
      (driverRun s cmds).1.muted c = true ∧ c ∉ (driverRun s cmds).2 := by
  intro cmds
  induction cmds with
  | nil => exact fun s hm _ => ⟨hm, by simp [driverRun]⟩
  | cons cmd rest ih =>
    intro s hm hall
    have hstep := driverStep_preserves_mute s c cmd hm
      (hall cmd (List.mem_cons_self cmd rest))
    have hrest := ih (driverStep s cmd).1 hstep.1
      (fun x hx => hall x (List.mem_cons_of_mem cmd hx))
    refine ⟨hrest.1, ?_⟩
    rw [driverRun]
    simp only [List.mem_append]
    rintro (h | h)
    · exact hstep.2 h
    · exact hrest.2 h

/-- C3: after SetChannelMute(c, true), and as long as no later command unmutes
c, no note queued on channel c ever reaches the Hardware Emulation Unit as a
register write, over every subsequent serialized command sequence (note
queueing, single-row playback and driver ticks included). -/
theorem muted_channel_never_written (s : DriverState) (c : Nat)
    (cmds : List DriverCmd)
    (hstay : ∀ cmd ∈ cmds, cmd ≠ DriverCmd.setMute c false) :
    c ∉ (driverRun s (DriverCmd.setMute c true :: cmds)).2 := by
  have hm : (driverStep s (DriverCmd.setMute c true)).1.muted c = true := by
    rw [driverStep, setChannelMute_muted]
    simp
  have h := driverRun_muted_no_writes c cmds
    (driverStep s (DriverCmd.setMute c true)).1 hm hstay
  rw [driverRun]
  simp only [List.mem_append]
  rintro (hw | hw)
  · simp [driverStep] at hw
  · exact h.2 hw

/-- C3 witness: channel 2 is muted, a note is queued on it directly, a row is
played and the driver ticks; no register write tagged with channel 2 is
emitted. -/
theorem muted_channel_never_written_witness :
    (∀ cmd ∈ [DriverCmd.queueNote 2, DriverCmd.playSingleRow [0, 1, 2],
              DriverCmd.driverTick],
        cmd ≠ DriverCmd.setMute 2 false) ∧
    2 ∉ (driverRun ⟨fun _ => false, [], some 1⟩
          (DriverCmd.setMute 2 true ::
            [DriverCmd.queueNote 2, DriverCmd.playSingleRow [0, 1, 2],
             DriverCmd.driverTick])).2 :=
  ⟨by decide,
    muted_channel_never_written ⟨fun _ => false, [], some 1⟩ 2
      [DriverCmd.queueNote 2, DriverCmd.playSingleRow [0, 1, 2],
       DriverCmd.driverTick]
      (by decide)⟩

/-- C10: muting the currently armed record channel disarms recording (record
channel becomes NONE); muting any other channel, or unmuting any channel,
leaves the record channel unchanged. -/
theorem set_channel_mute_record_disarm (s : DriverState) (c : Nat) :
    (s.recordChannel = some c → (SetChannelMute s c true).recordChannel = none) ∧
    (s.recordChannel ≠ some c →
      (SetChannelMute s c true).recordChannel = s.recordChannel) ∧
    (SetChannelMute s c false).recordChannel = s.recordChannel := by
  refine ⟨fun h => ?_, fun h => ?_, ?_⟩
  · simp [SetChannelMute, h]
  · rw [SetChannelMute]
    split
    · exact absurd (by tauto) h
    · rfl
  · rw [SetChannelMute]
    split
    · simp_all
    · rfl

/-- C10 witness: with channel 2 armed, muting channel 2 disarms recording,
muting channel 5 leaves it armed, and unmuting channel 2 leaves it armed. -/
theorem set_channel_mute_record_disarm_witness :
    ((⟨fun _ => false, [], some 2⟩ : DriverState).recordChannel = some 2 ∧
      (SetChannelMute ⟨fun _ => false, [], some 2⟩ 2 true).recordChannel = none) ∧
    ((⟨fun _ => false, [], some 2⟩ : DriverState).recordChannel ≠ some 5 ∧
      (SetChannelMute ⟨fun _ => false, [], some 2⟩ 5 true).recordChannel = some 2) ∧
    (SetChannelMute ⟨fun _ => false, [], some 2⟩ 2 false).recordChannel = some 2 :=
  ⟨⟨rfl, (set_channel_mute_record_disarm ⟨fun _ => false, [], some 2⟩ 2).1 rfl⟩,
   ⟨by decide,
    (set_channel_mute_record_disarm ⟨fun _ => false, [], some 2⟩ 5).2.1 (by decide)⟩,
   (set_channel_mute_record_disarm ⟨fun _ => false, [], some 2⟩ 2).2.2⟩

/-! ## Engine thread, WaitForStop and RenderToFile (C4, C6, C7)

The foreground posts messages to the engine thread; the engine drains them and
runs IdleLoop.  Each Sleep(100) inside a foreground poll is modelled as one
engine-thread iteration running concurrently. -/

/-- Cross-thread playback state of CSoundGen: whether the sound driver is
playing, the m_bHaltRequest flag, a posted-but-undrained WM_USER_STOP message,
a posted WM_USER_START_RENDER message, and whether m_pWaveRenderer is
assigned. -/
structure SoundGenState where
  playing : Bool
  haltRequest : Bool
  pendingStop : Bool
  pendingStartRender : Bool
  waveRenderer : Bool

/-- Embeds CSoundGen::HaltPlayer: moves the player to the non-playing state and
clears the halt request. -/
def HaltPlayer (s : SoundGenState) : SoundGenState :=
  { s with playing := false, haltRequest := false }

/-- Embeds one iteration of the engine thread: the message pump drains a
pending WM_USER_STOP (OnStopPlayer calls HaltPlayer), then IdleLoop calls
HaltPlayer if m_bHaltRequest is set. -/
def engineStep (s : SoundGenState) : SoundGenState :=
  let s1 := if s.pendingStop then HaltPlayer { s with pendingStop := false } else s
  if s1.haltRequest then HaltPlayer s1 else s1

/-- Poll count of CSoundGen::WaitForStop (loop bound 40). -/
def WAIT_FOR_STOP_POLLS : Nat := 40

/-- Sleep per poll iteration in CSoundGen::WaitForStop, in milliseconds. -/
def WAIT_POLL_MS : Nat := 100

/-- The polling loop of WaitForStop: while the player is still playing and
iterations remain, sleep (during which the engine thread runs one iteration)
and poll again. -/
def waitForStopAux : Nat → SoundGenState → SoundGenState
  | 0, s => s
  | n + 1, s => if s.playing then waitForStopAux n (engineStep s) else s

/-- Embeds CSoundGen::WaitForStop: up to 40 polls of 100 ms each, returning
whether the player is no longer playing when the poll ends. -/
def WaitForStop (s : SoundGenState) : Bool × SoundGenState :=
  let s1 := waitForStopAux WAIT_FOR_STOP_POLLS s
  (!s1.playing, s1)

/-- Embeds CSoundGen::RenderToFile: a null render specification is refused; if
the player is playing, m_bHaltRequest is set and WaitForStop is called (its
result discarded by the source); the renderer is then assigned; if the wave
file opens, WM_USER_START_RENDER is posted and true is returned, otherwise
StopPlayer posts WM_USER_STOP and false is returned. -/
def RenderToFile (hasRenderSpec openOk : Bool) (s : SoundGenState) :
    Bool × SoundGenState :=
  if !hasRenderSpec then (false, s)
  else
    let s1 := if s.playing then (WaitForStop { s with haltRequest := true }).2 else s
    let s2 := { s1 with waveRenderer := true }
    if openOk then (true, { s2 with pendingStartRender := true })
    else (false, { s2 with pendingStop := true })

lemma haltPlayer_not_playing (s : SoundGenState) : (HaltPlayer s).playing = false :=
  rfl

lemma engineStep_halts (s : SoundGenState)
    (h : s.haltRequest = true ∨ s.pendingStop = true) :
    (engineStep s).playing = false := by
  rw [engineStep]
  rcases h with h | h
  · by_cases hp : s.pendingStop
    · simp [hp, HaltPlayer]
    · simp [hp, h, HaltPlayer]
  · simp [h, HaltPlayer]

lemma waitForStopAux_stopped (n : Nat) (s : SoundGenState)
    (h : s.playing = false) : waitForStopAux n s = s := by
  cases n with
  | zero => rfl
  | succ n => simp [waitForStopAux, h]

lemma waitForStop_halt_observed (s : SoundGenState)
    (h : s.haltRequest = true ∨ s.pendingStop = true) :
    (WaitForStop s).1 = true ∧ (WaitForStop s).2.playing = false := by
  by_cases hp : s.playing
  · have h1 : (engineStep s).playing = false := engineStep_halts s h
    have h2 : waitForStopAux WAIT_FOR_STOP_POLLS s =
        waitForStopAux 39 (engineStep s) := by
      show waitForStopAux (39 + 1) s = _
      rw [waitForStopAux, if_pos hp]
    have h3 := waitForStopAux_stopped 39 (engineStep s) h1
    constructor
    · show (!(waitForStopAux WAIT_FOR_STOP_POLLS s).playing) = true
      rw [h2, h3, h1]
      rfl
    · show (waitForStopAux WAIT_FOR_STOP_POLLS s).playing = false
      rw [h2, h3, h1]
  · have hp2 : s.playing = false := by simpa using hp
    have h3 := waitForStopAux_stopped WAIT_FOR_STOP_POLLS s hp2
    constructor
    · show (!(waitForStopAux WAIT_FOR_STOP_POLLS s).playing) = true
      rw [h3, hp2]
      rfl
    · show (waitForStopAux WAIT_FOR_STOP_POLLS s).playing = false
      rw [h3, hp2]

/-- C7: WaitForStop is a bounded poll, 40 iterations of 100 ms giving a 4000 ms
ceiling; it returns true if and only if the player is no longer playing when
the poll ends; and after a stop request has been posted (StopPlayback on a
healthy engine, whose thread runs during each poll sleep) it returns true
within the poll bound. -/
theorem wait_for_stop_poll_semantics (s : SoundGenState) :
    WAIT_FOR_STOP_POLLS * WAIT_POLL_MS = 4000 ∧
    ((WaitForStop s).1 = true ↔ (WaitForStop s).2.playing = false) ∧
    (s.pendingStop = true → (WaitForStop s).1 = true) := by
  refine ⟨rfl, ?_, fun h => (waitForStop_halt_observed s (Or.inr h)).1⟩
  show (!(waitForStopAux WAIT_FOR_STOP_POLLS s).playing) = true ↔
    (waitForStopAux WAIT_FOR_STOP_POLLS s).playing = false
  cases hp : (waitForStopAux WAIT_FOR_STOP_POLLS s).playing <;> simp [hp]

/-- C7 witness: a playing engine with a posted stop request reports true. -/
theorem wait_for_stop_poll_semantics_witness :
    (true : Bool) = true ∧
    (WaitForStop ⟨true, false, true, false, false⟩).1 = true :=
  ⟨rfl, (wait_for_stop_poll_semantics ⟨true, false, true, false, false⟩).2.2 rfl⟩

/-- C4: when a render request is accepted while playback is active, the
WaitForStop call made after setting the halt request observes not-playing, and
at the moment rendering is started (the renderer assigned and the start-render
message posted) the player is no longer playing. -/
theorem render_halts_playback_first (s : SoundGenState) (openOk : Bool)
    (hp : s.playing = true) :
    (WaitForStop { s with haltRequest := true }).1 = true ∧
    (WaitForStop { s with haltRequest := true }).2.playing = false ∧
    ((RenderToFile true openOk s).1 = true →
      (RenderToFile true openOk s).2.playing = false ∧
      (RenderToFile true openOk s).2.pendingStartRender = true ∧
      (RenderToFile true openOk s).2.waveRenderer = true) := by
  have hobs := waitForStop_halt_observed { s with haltRequest := true }
    (Or.inl rfl)
  refine ⟨hobs.1, hobs.2, fun hacc => ?_⟩
  rw [RenderToFile] at hacc ⊢
  rw [hp] at hobs
  simp only [Bool.not_true, Bool.false_eq_true, if_false, hp, if_true] at hacc ⊢
  cases openOk with
  | false => simp at hacc
  | true => exact ⟨hobs.2, rfl, rfl⟩

/-- C4 witness: a playing engine accepting a render request has stopped playing
by the time rendering starts. -/
theorem render_halts_playback_first_witness :
    (⟨true, false, false, false, false⟩ : SoundGenState).playing = true ∧
    (WaitForStop { (⟨true, false, false, false, false⟩ : SoundGenState) with
        haltRequest := true }).1 = true ∧
    ((RenderToFile true true ⟨true, false, false, false, false⟩).1 = true →
      (RenderToFile true true ⟨true, false, false, false, false⟩).2.playing = false ∧
      (RenderToFile true true ⟨true, false, false, false, false⟩).2.pendingStartRender
          = true ∧
      (RenderToFile true true ⟨true, false, false, false, false⟩).2.waveRenderer
          = true) :=
  ⟨rfl,
   (render_halts_playback_first ⟨true, false, false, false, false⟩ true rfl).1,
   (render_halts_playback_first ⟨true, false, false, false, false⟩ true rfl).2.2⟩

/-- C6: RenderToFile returns failure when no render specification is supplied
(leaving the state untouched), and returns failure when the output sink cannot
be opened; in the sink-open-failure case the player ends not playing (any state
stopped in preparation remains stopped), no start-render is newly posted, and
the failure path posts a stop rather than any play command. -/
theorem render_to_file_failure_paths (openOk : Bool) (s : SoundGenState) :
    RenderToFile false openOk s = (false, s) ∧
    (RenderToFile true false s).1 = false ∧
    (RenderToFile true false s).2.playing = false ∧
    (RenderToFile true false s).2.pendingStartRender = s.pendingStartRender ∧
    (RenderToFile true false s).2.pendingStop = true := by
  refine ⟨rfl, ?_⟩
  rw [RenderToFile]
  simp only [Bool.not_true, Bool.false_eq_true, if_false]
  by_cases hp : s.playing
  · have hobs := waitForStop_halt_observed { s with haltRequest := true }
      (Or.inl rfl)
    have hpr : (WaitForStop { s with haltRequest := true }).2.pendingStartRender
        = s.pendingStartRender := by
      show (waitForStopAux WAIT_FOR_STOP_POLLS _).pendingStartRender = _
      generalize hgen : ({ s with haltRequest := true } : SoundGenState) = s0
      have hs0 : s0.pendingStartRender = s.pendingStartRender := by
        rw [← hgen]
      clear hgen
      clear hobs
      induction WAIT_FOR_STOP_POLLS generalizing s0 with
      | zero => exact hs0
      | succ n ih =>
        rw [waitForStopAux]
        split
        · refine ih (engineStep s0) ?_
          rw [engineStep]
          split <;> split <;> simp [HaltPlayer, hs0]
        · exact hs0
    rw [hp] at hobs hpr
    simp [hp, hobs.2, hpr]
  · have hp2 : s.playing = false := by simpa using hp
    simp [hp, hp2]

/-! ## BeginPlayer and ResetAPU (C5) -/

/-- Emulated hardware register image of the CAPU collaborator, with the
register file addressed by Nat (values truncated to a byte) and the loaded DPCM
sample flag. -/
structure CAPU where
  regs : Nat → Nat
  sampleLoaded : Bool

/-- Embeds CAPU::Write at (address, value) granularity. -/
def CAPU.Write (apu : CAPU) (Address Value : Nat) : CAPU :=
  { apu with regs := fun a => if a = Address then Value % 256 else apu.regs a }

/-- Modelled from the spec: CAPU::Reset is not under src/; per the spec it
resets all channels to the known power-on register state, taken here as all
registers cleared. -/
def CAPU.Reset (apu : CAPU) : CAPU := { apu with regs := fun _ => 0 }

/-- Embeds CAPU::ClearSample. -/
def CAPU.ClearSample (apu : CAPU) : CAPU := { apu with sampleLoaded := false }

/-- Embeds CSoundGen::ResetAPU: reset the APU, enable all channels (0x4015 gets
0x0F), clear the frame counter control, enable FDS, enable the MMC5 channels,
and clear the loaded sample. -/
def ResetAPU (apu : CAPU) : CAPU :=
  ((((apu.Reset.Write 0x4015 0x0F).Write 0x4017 0x00).Write
      0x4023 0x02).Write 0x5015 0x03).ClearSample

/-- Ordered side effects of starting playback visible to this claim: rows are
decoded only by CSoundDriver::Tick from IdleLoop, never inside BeginPlayer. -/
inductive EngineEvent where
  | resetTempo
  | resetAPUCall
  | makeSilent
  | applyGlobalState
  | startRecording
  | rowDecoded
  deriving DecidableEq

/-- Configuration consulted by CSoundGen::BeginPlayer. -/
structure PlayerConfig where
  documentLoaded : Bool
  audioDeviceOpen : Bool
  fileLoaded : Bool
  bRetrieveChanState : Bool
  recordArmed : Bool

/-- Embeds CSoundGen::BeginPlayer as its ordered event sequence: the guard
(document present, audio device open, file loaded) short-circuits to nothing;
otherwise ResetTempo, ResetAPU and MakeSilent run in order, then optionally
ApplyGlobalState and StartRecording. -/
def BeginPlayerEvents (cfg : PlayerConfig) : List EngineEvent :=
  if cfg.documentLoaded && cfg.audioDeviceOpen && cfg.fileLoaded then
    [EngineEvent.resetTempo, EngineEvent.resetAPUCall, EngineEvent.makeSilent]
      ++ (if cfg.bRetrieveChanState then [EngineEvent.applyGlobalState] else [])
      ++ (if cfg.recordArmed then [EngineEvent.startRecording] else [])
  else []

/-- Effect of each engine event on the APU register image.  MakeSilent calls
CAPU::Reset and CAPU::ClearSample; ApplyGlobalState, recording and row decoding
do not reset registers. -/
def applyEvent (apu : CAPU) : EngineEvent → CAPU
  | EngineEvent.resetAPUCall => ResetAPU apu
  | EngineEvent.makeSilent => apu.Reset.ClearSample
  | _ => apu

/-- A start of playback followed by n scheduler iterations, each of which may
decode a row (rows are over-approximated as one per tick). -/
def playbackTrace (cfg : PlayerConfig) (n : Nat) : List EngineEvent :=
  BeginPlayerEvents cfg ++ List.replicate n EngineEvent.rowDecoded

lemma index_separation {α : Type} {l1 l2 : List α} {a b : α}
    (ha : a ∉ l2) (hb : b ∉ l1) :
    ∀ (i j : Nat), (l1 ++ l2)[i]? = some a → (l1 ++ l2)[j]? = some b → i < j := by
  intro i j hi hj
  have hilt : i < l1.length := by
    by_contra hge
    have hge2 : l1.length ≤ i := Nat.le_of_not_lt hge
    rw [List.getElem?_append_right hge2] at hi
    exact ha (List.getElem?_mem hi)
  have hjge : l1.length ≤ j := by
    by_contra hlt
    have hlt2 : j < l1.length := Nat.lt_of_not_le hlt
    rw [List.getElem?_append_left hlt2] at hj
    exact hb (List.getElem?_mem hj)
  exact Nat.lt_of_lt_of_le hilt hjge

lemma rowDecoded_not_in_beginPlayer (cfg : PlayerConfig) :
    EngineEvent.rowDecoded ∉ BeginPlayerEvents cfg := by
  rw [BeginPlayerEvents]
  split
  · simp only [List.append_assoc, List.mem_append, List.mem_cons,
      List.mem_singleton, List.not_mem_nil]
    rintro ((h | h | h) | h | h) <;> first
      | exact absurd h (by decide)
      | (revert h; split <;> simp_all)
  · simp

/-- C5: for every start of playback that passes the BeginPlayer guard, the
Hardware Emulation Unit reset happens strictly before any row is decoded, and
immediately after the reset the channel-enable register 0x4015 holds 0x0F. -/
theorem begin_player_resets_apu_before_rows (cfg : PlayerConfig) (apu : CAPU)
    (n : Nat) (hdoc : cfg.documentLoaded = true)
    (hdev : cfg.audioDeviceOpen = true) (hfile : cfg.fileLoaded = true) :
    EngineEvent.rowDecoded ∉ BeginPlayerEvents cfg ∧
    (∃ pre post, BeginPlayerEvents cfg = pre ++ EngineEvent.resetAPUCall :: post ∧
      EngineEvent.rowDecoded ∉ pre ∧
      (List.foldl applyEvent apu (pre ++ [EngineEvent.resetAPUCall])).regs
        0x4015 = 0x0F) ∧
    (∀ (i j : Nat), (playbackTrace cfg n)[i]? = some EngineEvent.resetAPUCall →
      (playbackTrace cfg n)[j]? = some EngineEvent.rowDecoded → i < j) := by
  refine ⟨rowDecoded_not_in_beginPlayer cfg, ?_, ?_⟩
  · refine ⟨[EngineEvent.resetTempo],
      [EngineEvent.makeSilent]
        ++ (if cfg.bRetrieveChanState then [EngineEvent.applyGlobalState] else [])
        ++ (if cfg.recordArmed then [EngineEvent.startRecording] else []), ?_, ?_, rfl⟩
    · rw [BeginPlayerEvents, hdoc, hdev, hfile]
      rfl
    · simp
  · exact index_separation (by simp) (rowDecoded_not_in_beginPlayer cfg)

/-- C5 witness: instantiation at a fully loaded configuration, a blank APU and
three subsequent scheduler ticks. -/
theorem begin_player_resets_apu_before_rows_witness :
    EngineEvent.rowDecoded ∉ BeginPlayerEvents ⟨true, true, true, true, false⟩ ∧
    (∃ pre post,
      BeginPlayerEvents ⟨true, true, true, true, false⟩ =
        pre ++ EngineEvent.resetAPUCall :: post ∧
      EngineEvent.rowDecoded ∉ pre ∧
      (List.foldl applyEvent ⟨fun _ => 0, false⟩
        (pre ++ [EngineEvent.resetAPUCall])).regs 0x4015 = 0x0F) ∧
    (∀ (i j : Nat),
      (playbackTrace ⟨true, true, true, true, false⟩ 3)[i]? =
        some EngineEvent.resetAPUCall →
      (playbackTrace ⟨true, true, true, true, false⟩ 3)[j]? =
        some EngineEvent.rowDecoded → i < j) :=
  begin_player_resets_apu_before_rows ⟨true, true, true, true, false⟩
    ⟨fun _ => 0, false⟩ 3 rfl rfl rfl

end MaxiTracker
